import Mathlib

/-!
Verification of the sek8s control-plane subsystem (admission webhook,
signed-request authorization, cosign signature validator, registry
allowlist, HuggingFace model-cache manager) against its natural-language
specification.  Every definition below is a shallow embedding of the
corresponding Python function in the repository; file and line references
are given in each doc comment.  External effects (HTTP fetches, the cosign
subprocess, the crypto library, the file system) are passed in as explicit
oracle arguments so that the pure control flow of the source is captured
exactly.
-/

namespace Sek8s

/-! ## Admission results (src/sek8s/validators/base.py) -/

/-- Embedding of `ValidationResult` (src/sek8s/validators/base.py, lines 13-18). -/
structure ValidationResult where
  allowed : Bool
  messages : List String
  warnings : List String
deriving DecidableEq, Repr

/-- Embedding of `ValidationResult.allow` (base.py lines 20-28): a message or
warning argument of `None` (here `none`) is not appended. -/
def ValidationResult.allow (message : Option String := none)
    (warning : Option String := none) : ValidationResult :=
  { allowed := true
    messages := match message with | some m => [m] | none => []
    warnings := match warning with | some w => [w] | none => [] }

/-- Embedding of `ValidationResult.deny` (base.py lines 30-33). -/
def ValidationResult.deny (message : String) : ValidationResult :=
  { allowed := false, messages := [message], warnings := [] }

/-- Embedding of `ValidationResult.combine` (base.py lines 35-46): the loop
starts from `allowed=true`, flips `allowed` on any denied input, and extends
`messages` and `warnings` with every input's lists, in input order. -/
def ValidationResult.combine : List ValidationResult → ValidationResult
  | [] => { allowed := true, messages := [], warnings := [] }
  | r :: rest =>
    let c := ValidationResult.combine rest
    { allowed := r.allowed && c.allowed
      messages := r.messages ++ c.messages
      warnings := r.warnings ++ c.warnings }

/-! ## Admission controller merge
(src/sek8s/services/admission_controller.py, `validate_admission`) -/

/-- Outcome of one validator task as observed by
`asyncio.gather(..., return_exceptions=True)` in `validate_admission`
(admission_controller.py lines 79-84): either a `ValidationResult` or a
raised exception. -/
inductive ValidatorOutcome
  | ok (r : ValidationResult)
  | exn
deriving DecidableEq, Repr

/-- Embedding of the result-processing loop of
`AdmissionController.validate_admission` (admission_controller.py lines
86-111), paired with each validator's class name.  An exception flips
`allowed` and contributes the single message `"<name>: Internal error"`;
a denied result flips `allowed` and contributes its messages; an allowed
result contributes nothing to `messages`; warnings of non-exception results
are always appended.  Returns `(allowed, messages, warnings)`. -/
def mergeOutcomes : List (String × ValidatorOutcome) → Bool × List String × List String
  | [] => (true, [], [])
  | (name, o) :: rest =>
    let (a, ms, ws) := mergeOutcomes rest
    match o with
    | .exn => (false, (name ++ ": Internal error") :: ms, ws)
    | .ok r =>
      (r.allowed && a, (if r.allowed then ms else r.messages ++ ms), r.warnings ++ ws)

/-- Embedding of the admission review response dictionary built by
`AdmissionController._build_response` (admission_controller.py lines
143-160): `status.message` is attached only when `messages` is non-empty. -/
structure AdmissionResponse where
  uid : String
  allowed : Bool
  statusMessage : Option String
  warnings : List String
deriving DecidableEq, Repr

/-- Embedding of `AdmissionController._build_response` (admission_controller.py
lines 143-160). -/
def build_response (uid : String) (allowed : Bool) (messages warnings : List String) :
    AdmissionResponse :=
  { uid := uid
    allowed := allowed
    statusMessage := if messages.isEmpty then none else some (String.intercalate "; " messages)
    warnings := warnings }

/-- Embedding of `AdmissionController.validate_admission`
(admission_controller.py lines 56-141) on the happy path: merge the per
validator outcomes and build the response for the request's uid. -/
def validate_admission (uid : String) (outcomes : List (String × ValidatorOutcome)) :
    AdmissionResponse :=
  let (allowed, messages, warnings) := mergeOutcomes outcomes
  build_response uid allowed messages warnings

/-! ## Signed-request authorization (src/sek8s/services/util.py, `authorize`) -/

/-- Value of a digit run, `none` when empty or a non-digit appears. -/
def digitsVal (l : List Char) : Option Nat :=
  if l.isEmpty then none
  else
    l.foldl
      (fun acc c =>
        match acc with
        | none => none
        | some n => if c.isDigit then some (n * 10 + (c.toNat - 48)) else none)
      (some 0)

/-- Model of Python `int(s)` restricted to an optional sign followed by
decimal digits; `none` models the raised `ValueError`.  (Python additionally
strips whitespace and allows digit-group underscores; the claims below only
depend on well-formed timestamps parsing to their value and on clearly
malformed strings failing to parse, on which this model agrees.) -/
def pyInt (s : String) : Option Int :=
  match s.toList with
  | '-' :: rest => (digitsVal rest).map (fun n => -(n : Int))
  | '+' :: rest => (digitsVal rest).map (fun n => (n : Int))
  | l => (digitsVal l).map (fun n => (n : Int))

/-- The settings consulted by `authorize` (services/util.py):
`settings.miner_ss58` and `settings.allowed_validators`. -/
structure AuthSettings where
  minerSS58 : String
  allowedValidators : List String

/-- Result of one call of the inner `_authorize` dependency: an HTTP 401, a
pass, or an uncaught Python exception (which FastAPI surfaces as a 500). -/
inductive AuthOutcome
  | authorized
  | unauthorized (detail : String)
  | uncaught (excName : String)
deriving DecidableEq, Repr

/-- Embedding of the `allowed_signers` construction in `authorize`
(services/util.py lines 141-145). -/
def allowedSignersFor (allowMiner allowValidator : Bool) (s : AuthSettings) : List String :=
  (if allowMiner then [s.minerSS58] else []) ++
    (if allowValidator then s.allowedValidators else [])

/-- Python truthiness test `not v` applied to an optional header value:
true for `None` and for the empty string. -/
def headerFalsy : Option String → Bool
  | none => true
  | some s => s.isEmpty

/-- Embedding of `request.state.body_sha256 if request.state.body_sha256 else
purpose` (services/util.py line 157): `none` means the joined value would be
Python `None` (whereupon `":".join` raises `TypeError`). -/
def payloadFor : Option String → Option String → Option String
  | some b, p => if b.isEmpty then p else some b
  | none, p => p

/-- Embedding of the inner `_authorize` function of `authorize`
(src/sek8s/services/util.py lines 128-169).  The three header values are
optional strings; `verify` is the crypto oracle: given the signature string
and the hex signature header it returns `none` when `bytes.fromhex` raises
(non-hex input) and otherwise the boolean result of
`Keypair.verify`.  The single `if` of the source short-circuits left to
right: falsy headers, then signer-set membership, then `int(nonce)` (whose
`ValueError` is uncaught), then staleness `now - nonce >= 30`; after it, the
signature check. -/
def authorize (allowMiner allowValidator : Bool) (purpose : Option String)
    (s : AuthSettings) (now : Int) (bodySha256 : Option String)
    (hotkey nonce signature : Option String)
    (verify : String → String → Option Bool) : AuthOutcome :=
  if headerFalsy hotkey || headerFalsy nonce || headerFalsy signature then
    .unauthorized "go away (missing)"
  else
    match hotkey, nonce, signature with
    | some hk, some nc, some sg =>
      if !(allowedSignersFor allowMiner allowValidator s).contains hk then
        .unauthorized "go away (missing)"
      else
        match pyInt nc with
        | none => .uncaught "ValueError"
        | some t =>
          if 30 ≤ now - t then
            .unauthorized "go away (missing)"
          else
            match payloadFor bodySha256 purpose with
            | none => .uncaught "TypeError"
            | some payload =>
              match verify (hk ++ ":" ++ nc ++ ":" ++ payload) sg with
              | none => .uncaught "ValueError"
              | some true => .authorized
              | some false => .unauthorized "go away (sig)"
    | _, _, _ => .unauthorized "go away (missing)"

/-! ## Registry allowlist (src/sek8s/validators/registry.py) -/

/-- ASCII lower-casing of one character, the effect of Python `str.lower`
on the ASCII registry names involved here. -/
def asciiLower (c : Char) : Char :=
  if 'A' ≤ c ∧ c ≤ 'Z' then Char.ofNat (c.toNat + 32) else c

/-- Python `s.lower()` on a string represented as its character list. -/
def lowerList (l : List Char) : List Char := l.map asciiLower

/-- Embedding of `RegistryValidator._is_registry_allowed` (registry.py lines
89-101), with strings as character lists.  The loop returns true on the
first entry that matches; an entry ending in `*` is compared by
`registry.startswith(entry[:-1])` (case-sensitive), any other entry by
`entry.lower() == registry.lower()`. -/
def is_registry_allowed (allowedRegistries : List (List Char)) (registry : List Char) : Bool :=
  allowedRegistries.any fun allowed =>
    if allowed.getLast? = some '*' then allowed.dropLast.isPrefixOf registry
    else lowerList allowed == lowerList registry

/-! ## Cosign validator (src/sek8s/validators/cosign.py) -/

/-- Outcome of `_verify_image_signature` for one image, as seen by the
per-image loop of `_verify_cosign_config`: a boolean verification result, or
one of the three exception classes that can escape. -/
inductive ImgResult
  | ok (valid : Bool)
  | rateLimit (msg : String)
  | unavailable (msg : String)
  | exn (msg : String)
deriving DecidableEq, Repr

/-- Embedding of the control flow of `CosignValidator._verify_image_signature`
(cosign.py lines 390-435).  `rlu` is `self._rate_limit_until` and `now` is
`time.time()`; `cachePos`/`cacheNeg` say whether the resolved image's cache
key hits the positive or negative result cache; `run` is the oracle for what
the body of the `try` (the actual cosign invocation) would produce.  Returns
the outcome together with a flag telling whether the external verification
was actually run.  A generic exception from the body is swallowed into
`valid = False` (then negative-cached); rate-limit and unavailable errors
propagate. -/
def verify_image_signature (rlu now : Int) (rateMsg : String)
    (cachePos cacheNeg : Bool) (run : ImgResult) : ImgResult × Bool :=
  if rlu ≠ 0 ∧ now < rlu then (.rateLimit rateMsg, false)
  else if cachePos then (.ok true, false)
  else if cacheNeg then (.ok false, false)
  else
    match run with
    | .exn _ => (.ok false, true)
    | r => (r, true)

/-- One image of a request as processed by `_verify_cosign_config` (cosign.py
lines 295-327): its name, whether `get_verification_config` finds a config
for it, whether that config disables verification
(`verification_method == "disabled" or not require_signature`), and the
oracle outcome of `_verify_image_signature` on it. -/
structure ImgCase where
  image : String
  hasConfig : Bool
  disabled : Bool
  result : ImgResult
deriving DecidableEq, Repr

/-- How the `_verify_cosign_config` rule terminates: a normal return of the
violation list, or a re-raised `RateLimitError` /
`CosignVerificationUnavailableError`. -/
inductive RuleExit
  | finished (violations : List String)
  | raisedRate (msg : String)
  | raisedUnavail (msg : String)
deriving DecidableEq, Repr

/-- Embedding of the per-image loop of `CosignValidator._verify_cosign_config`
(cosign.py lines 295-327): deduplicate via `seen`, skip images with no
config or with verification disabled, invoke `_verify_image_signature` for
the rest.  An invalid result appends a violation and continues; a generic
exception appends `"Verification failed for <img>: <err>"` and continues;
`RateLimitError` and `CosignVerificationUnavailableError` abort the loop by
re-raising (discarding the violations accumulated so far inside this rule).
Returns the exit together with the list of images on which
`_verify_image_signature` was invoked, in order. -/
def verifyLoop (seen violations invoked : List String) :
    List ImgCase → RuleExit × List String
  | [] => (.finished violations, invoked)
  | c :: rest =>
    if c.image ∈ seen then verifyLoop seen violations invoked rest
    else
      let seen' := c.image :: seen
      if !c.hasConfig then verifyLoop seen' violations invoked rest
      else if c.disabled then verifyLoop seen' violations invoked rest
      else
        match c.result with
        | .ok true => verifyLoop seen' violations (invoked ++ [c.image]) rest
        | .ok false =>
          verifyLoop seen'
            (violations ++ ["Image " ++ c.image ++ " has invalid or missing signature"])
            (invoked ++ [c.image]) rest
        | .rateLimit m => (.raisedRate m, invoked ++ [c.image])
        | .unavailable m => (.raisedUnavail m, invoked ++ [c.image])
        | .exn m =>
          verifyLoop seen'
            (violations ++ ["Verification failed for " ++ c.image ++ ": " ++ m])
            (invoked ++ [c.image]) rest

/-- Behaviour of one rule as observed by the rule loop of
`CosignValidator.validate` (cosign.py lines 199-216): a normal return of
violation strings, or one of the three caught exception classes. -/
inductive RuleStep
  | returns (vs : List String)
  | raiseRate (msg : String)
  | raiseUnavail (msg : String)
  | raiseExn (msg : String)
deriving DecidableEq, Repr

/-- A `RuleExit` of `_verify_cosign_config` seen as a `RuleStep` of the
validate rule loop. -/
def RuleExit.toStep : RuleExit → RuleStep
  | .finished vs => .returns vs
  | .raisedRate m => .raiseRate m
  | .raisedUnavail m => .raiseUnavail m

/-- Result of the rule loop of `CosignValidator.validate`: either the
unavailable short-circuit (deny, result NOT cached) or the final violation
list that the tail of `validate` turns into an allow/deny and caches. -/
inductive RulesOutcome
  | denyNoCache (msg : String)
  | decided (violations : List String)
deriving DecidableEq, Repr

/-- Embedding of the rule loop of `CosignValidator.validate` (cosign.py
lines 199-216): extend `violations` on normal return; on
`CosignVerificationUnavailableError` return the deny immediately (skipping
the caching tail); on `RateLimitError` append `str(e)` and `break`; on any
other exception append `"Verification failed: <err>"` and continue. -/
def runRules (violations : List String) : List RuleStep → RulesOutcome
  | [] => .decided violations
  | s :: rest =>
    match s with
    | .returns vs => runRules (violations ++ vs) rest
    | .raiseRate m => .decided (violations ++ [m])
    | .raiseUnavail m =>
      .denyNoCache ("Cosign verification unavailable (network/infra): " ++ m)
    | .raiseExn m => runRules (violations ++ ["Verification failed: " ++ m]) rest

/-- Embedding of the tail of `CosignValidator.validate` (cosign.py lines
217-224): build the `ValidationResult` from the rule-loop outcome and cache
it — except on the unavailable short-circuit, which returns the deny without
storing anything.  Returns `(result, cache entry stored under the request's
admission-cache key, if any)`. -/
def cosignValidate (rules : List RuleStep) : ValidationResult × Option ValidationResult :=
  match runRules [] rules with
  | .denyNoCache m => (ValidationResult.deny m, none)
  | .decided vs =>
    let r :=
      if !vs.isEmpty then ValidationResult.deny (String.intercalate "; " vs)
      else ValidationResult.allow
    (r, some r)

/-! ## Character-list utilities shared by the cache and image-parsing models -/

/-- Python `s.split(c)` for a one-character separator, over character lists:
always returns at least one (possibly empty) component. -/
def splitOnChar (c : Char) : List Char → List (List Char)
  | [] => [[]]
  | x :: xs =>
    match splitOnChar c xs with
    | [] => [[]]
    | h :: t => if x = c then [] :: h :: t else (x :: h) :: t

/-- Python `s.split(c, 1)`: split at the first occurrence of `c`, `none`
when `c` does not occur. -/
def splitFirst (c : Char) : List Char → Option (List Char × List Char)
  | [] => none
  | x :: xs =>
    if x = c then some ([], xs)
    else
      match splitFirst c xs with
      | none => none
      | some (a, b) => some (x :: a, b)

/-- Python `s.rsplit(c, 1)`: split at the last occurrence of `c`. -/
def splitLast (c : Char) (l : List Char) : Option (List Char × List Char) :=
  match splitFirst c l.reverse with
  | none => none
  | some (a, b) => some (b.reverse, a.reverse)

/-- Python `c.join(parts)` over character lists. -/
def joinChar (c : Char) : List (List Char) → List Char
  | [] => []
  | p :: ps => p ++ (ps.flatMap fun q => c :: q)

/-- Boolean substring test (Python `needle in hay`). -/
def infixOfList (needle : List Char) : List Char → Bool
  | [] => needle.isEmpty
  | x :: xs => needle.isPrefixOf (x :: xs) || infixOfList needle xs

/-- Python `needle in hay` for strings. -/
def containsSubstr (needle hay : String) : Bool :=
  infixOfList needle.toList hay.toList

/-! ## Cache verification (src/sek8s/system_manager/cache/util.py, `verify_cache`) -/

/-- One entry of the `files` array of the upstream `/misc/hf_repo_info`
manifest response, as read by `verify_cache` (util.py lines 117-124). -/
structure RemoteFileInfo where
  path : String
  isLfs : Bool
  sha256 : Option String
  blobId : Option String
  size : Option Nat
deriving DecidableEq, Repr

/-- Outcome of the manifest fetch at the top of `verify_cache` (util.py lines
101-115): a 200 response with parsed files, a non-200 response, or a raised
`aiohttp.ClientError` / `asyncio.TimeoutError`. -/
inductive ManifestFetch
  | ok (files : List RemoteFileInfo)
  | httpError (status : Nat) (body : String)
  | clientError
deriving DecidableEq, Repr

/-- The dictionary returned by `verify_cache` (util.py lines 111, 115, 155). -/
structure VerifyReport where
  verified : Nat
  skipped : Nat
  total : Nat
  skippedApiError : Bool
deriving DecidableEq, Repr

/-- State of one local file under the snapshot directory as far as
`verify_cache` inspects it: the resolved target's byte size and, when the
path is a symlink whose target file name is 64 characters long, that name
(`get_symlink_hash`, util.py lines 81-87). -/
structure LocalFileState where
  size : Nat
  symlinkHash : Option String
deriving DecidableEq, Repr

/-- Python dict insertion `m[k] = v`: overwrite in place when the key
exists, else append. -/
def dictInsert (m : List (String × Option String × Option Nat)) (k : String)
    (v : Option String × Option Nat) : List (String × Option String × Option Nat) :=
  if m.any (fun p => p.1 == k) then m.map (fun p => if p.1 == k then (k, v) else p)
  else m ++ [(k, v)]

/-- Embedding of the `remote_files` construction of `verify_cache` (util.py
lines 117-124): skip manifest paths starting with `_`; an LFS entry maps to
its `sha256`, any other to its `blob_id`, each with the size. -/
def buildRemoteFiles (files : List RemoteFileInfo) : List (String × Option String × Option Nat) :=
  files.foldl
    (fun m item =>
      if item.path.toList.head? = some '_' then m
      else dictInsert m item.path (if item.isLfs then (item.sha256, item.size) else (item.blobId, item.size)))
    []

/-- Does some `/`-separated component of the relative path start with `_`?
(the filter applied when collecting `local_files`, util.py lines 132-136). -/
def pathHasUnderscorePart (rel : String) : Bool :=
  (splitOnChar '/' rel.toList).any fun part => part.head? = some '_'

/-- Embedding of the per-file loop of `verify_cache` (util.py lines 138-153),
iterating the remote dictionary in order over the local file map.  Returns
the raised `ValueError` message or the `(verified, skipped)` counters. -/
def checkFiles (localFiles : List (String × LocalFileState)) :
    List (String × Option String × Option Nat) → Except String (Nat × Nat)
  | [] => .ok (0, 0)
  | (rpath, rhash, rsize) :: rest =>
    match (localFiles.find? fun p => p.1 == rpath).map (·.2) with
    | none => .error ("Missing file: " ++ rpath)
    | some lf =>
      match rhash with
      | none => (checkFiles localFiles rest).map fun (v, s) => (v, s + 1)
      | some h =>
        if h.toList.length == 40 then
          (checkFiles localFiles rest).map fun (v, s) => (v, s + 1)
        else if (match rsize with | some rs => lf.size != rs | none => false) then
          .error ("Size mismatch: " ++ rpath)
        else
          match lf.symlinkHash with
          | some sh =>
            if sh != h then .error ("Hash mismatch: " ++ rpath)
            else (checkFiles localFiles rest).map fun (v, s) => (v + 1, s)
          | none => (checkFiles localFiles rest).map fun (v, s) => (v + 1, s)

/-- Embedding of `verify_cache` (src/sek8s/system_manager/cache/util.py
lines 89-155).  `fetch` is the outcome of the manifest request,
`snapshotDirExists` whether `{cache_dir}/hub/models--…/snapshots/{revision}`
exists, and `localListing` the relative-path → file-state map produced by
`rglob` over that directory.  On any fetch failure the source does NOT
raise: it logs a warning and returns
`{"verified": 0, "skipped": 0, "total": 0, "skipped_api_error": True}`. -/
def verify_cache (fetch : ManifestFetch) (snapshotDirExists : Bool)
    (localListing : List (String × LocalFileState)) : Except String VerifyReport :=
  match fetch with
  | .httpError _ _ => .ok ⟨0, 0, 0, true⟩
  | .clientError => .ok ⟨0, 0, 0, true⟩
  | .ok files =>
    let remote := buildRemoteFiles files
    if !snapshotDirExists then .error "Cache directory not found"
    else
      let localFiles := localListing.filter fun p => !pathHasUnderscorePart p.1
      match checkFiles localFiles remote with
      | .error m => .error m
      | .ok (v, s) => .ok ⟨v, s, remote.length, false⟩

/-! ## Marker writing (src/sek8s/system_manager/cache/manager.py) -/

/-- Effects of one `HuggingFaceSnapshot._run_download` run (manager.py lines
240-278): whether `.cache_complete` was written (and any `.cache_stale`
removed), whether the cache directory was removed, and whether the task
re-raised. -/
structure DownloadEffect where
  wroteComplete : Bool
  removedDir : Bool
  raised : Bool
deriving DecidableEq, Repr

/-- Embedding of `HuggingFaceSnapshot._run_download` (manager.py lines
240-278): after a successful `snapshot_download`, ANY non-raising return of
`verify_cache` leads to the `.cache_complete` write; an exception anywhere
removes the tree and re-raises. -/
def run_download (downloadOk : Bool) (verifyResult : Except String VerifyReport) :
    DownloadEffect :=
  if !downloadOk then ⟨false, true, true⟩
  else
    match verifyResult with
    | .error _ => ⟨false, true, true⟩
    | .ok _ => ⟨true, false, false⟩

/-- Outcome of `fetch_hf_info` during `reconcile` (manager.py lines 330-346):
the parsed identity, or a raised exception. -/
inductive IdentityFetch
  | ok (repoId : Option String) (revision : Option String)
  | failed
deriving DecidableEq, Repr

/-- Marker/flag state after one `HuggingFaceSnapshot.reconcile` call
(manager.py lines 304-387); both pre-existing markers are removed before
verification, so these fields describe the on-disk markers at return. -/
structure ReconcileEffect where
  wroteComplete : Bool
  wroteStale : Bool
  reconciled : Bool
deriving DecidableEq, Repr

/-- Embedding of `HuggingFaceSnapshot.reconcile` (manager.py lines 304-387):
nothing on disk → reconciled with no markers; identity fetch failure or a
falsy `repo_id` → skip; otherwise clear the markers, run `verify_cache`, and
map its outcome — a non-raising return writes `.cache_complete`; a
`ValueError` containing "Missing file" or "not found" leaves the snapshot
markerless and unreconciled; one containing "verification failed" likewise;
any other `ValueError` writes `.cache_stale`. -/
def reconcile (presentOnDisk : Bool) (identity : IdentityFetch)
    (verifyResult : Except String VerifyReport) : ReconcileEffect :=
  if !presentOnDisk then ⟨false, false, true⟩
  else
    match identity with
    | .failed => ⟨false, false, false⟩
    | .ok repoId _ =>
      if (repoId.getD "").isEmpty then ⟨false, false, false⟩
      else
        match verifyResult with
        | .ok _ => ⟨true, false, true⟩
        | .error msg =>
          if containsSubstr "Missing file" msg || containsSubstr "not found" msg then
            ⟨false, false, false⟩
          else if containsSubstr "verification failed" msg then ⟨false, false, false⟩
          else ⟨false, true, true⟩

/-! ## Cache cleanup (src/sek8s/system_manager/cache/manager.py,
`CacheManager.cleanup`, lines 509-557) -/

/-- One tracked snapshot as `cleanup` observes it: `inProgress` is
`chute.is_in_progress`, and `size`, `repoId`, `lastAccessed` come from the
`_scan_hub()` triple (with `last_accessed` possibly `None`). -/
structure ChuteEntry where
  chuteId : String
  inProgress : Bool
  size : Nat
  lastAccessed : Option Int
  repoId : Option String
deriving DecidableEq, Repr

/-- Embedding of `CleanupResult` (cache/models.py). -/
structure CleanupResult where
  freedBytes : Nat
  removedChutes : List String
deriving DecidableEq, Repr

/-- Embedding of the exclude-pattern test of `cleanup` (manager.py line 531):
`exclude_pattern and scan_repo_id and exclude_pattern.lower() in
scan_repo_id.lower()` — falsy (absent or empty) pattern or repo id never
excludes. -/
def excludedByPattern (pattern : Option String) (c : ChuteEntry) : Bool :=
  match pattern, c.repoId with
  | some p, some rid =>
    !p.isEmpty && !rid.isEmpty && infixOfList (lowerList p.toList) (lowerList rid.toList)
  | _, _ => false

/-- Embedding of the candidate-gathering loop of `cleanup` (manager.py lines
524-533): skip in-progress snapshots, zero-size snapshots and excluded repo
ids. -/
def gatherCandidates (pattern : Option String) (chutes : List ChuteEntry) : List ChuteEntry :=
  chutes.filter fun c => !c.inProgress && c.size != 0 && !excludedByPattern pattern c

/-- The `last_acc or 0` default applied when a candidate is appended
(manager.py line 533). -/
def candLastAcc (c : ChuteEntry) : Int := c.lastAccessed.getD 0

/-- The candidates removed by the age pass of `cleanup` (manager.py lines
535-541), in candidate order. -/
def firstPassRemoved (cutoff : Int) (cands : List ChuteEntry) : List ChuteEntry :=
  cands.filter fun c => decide (candLastAcc c < cutoff)

/-- The candidate list remaining after the age pass (manager.py lines
543-544: filter by the removed-id set). -/
def remainingAfterFirst (cutoff : Int) (cands : List ChuteEntry) : List ChuteEntry :=
  cands.filter fun c => !((firstPassRemoved cutoff cands).map (·.chuteId)).contains c.chuteId

/-- The stable size-descending sort of the size pass (manager.py line 548,
`candidates.sort(key=lambda x: x[1], reverse=True)`). -/
def sortBySizeDesc (l : List ChuteEntry) : List ChuteEntry :=
  l.mergeSort fun a b => decide (b.size ≤ a.size)

/-- Total size in bytes of a list of candidates. -/
def sumSizes (l : List ChuteEntry) : Nat := (l.map (·.size)).sum

/-- Embedding of the size-pass loop body of `cleanup` (manager.py lines
549-556): starting from the running total, remove entries until the total
is within the cap, keeping removal order. -/
def secondPass (maxBytes : Nat) : Nat → List ChuteEntry → List ChuteEntry
  | _, [] => []
  | total, c :: rest =>
    if total ≤ maxBytes then [] else c :: secondPass maxBytes (total - c.size) rest

/-- The candidates removed by the size pass of `cleanup` (manager.py lines
546-556): nothing when the remaining total is within the cap, else the
largest-first loop. -/
def cleanupSecondRemoved (maxBytes : Nat) (remaining : List ChuteEntry) : List ChuteEntry :=
  if maxBytes < sumSizes remaining then
    secondPass maxBytes (sumSizes remaining) (sortBySizeDesc remaining)
  else []

/-- The byte cap `max_size_gb * 1024 * 1024 * 1024` (manager.py line 520). -/
def cleanupMaxBytes (maxSizeGb : Nat) : Nat := maxSizeGb * 1024 * 1024 * 1024

/-- The age cutoff `time.time() - max_age_days * 24 * 3600`
(manager.py line 521). -/
def cleanupCutoff (now : Int) (maxAgeDays : Nat) : Int := now - (maxAgeDays * 24 * 3600 : Nat)

/-- Embedding of `CacheManager.cleanup` (manager.py lines 509-557): gather
candidates, remove by age, then remove largest-first while over the size
cap; return the removed chute ids and the freed byte total. -/
def cleanup (now : Int) (maxAgeDays maxSizeGb : Nat) (pattern : Option String)
    (chutes : List ChuteEntry) : CleanupResult :=
  let cands := gatherCandidates pattern chutes
  let removed1 := firstPassRemoved (cleanupCutoff now maxAgeDays) cands
  let removed2 :=
    cleanupSecondRemoved (cleanupMaxBytes maxSizeGb)
      (remainingAfterFirst (cleanupCutoff now maxAgeDays) cands)
  ⟨sumSizes (removed1 ++ removed2), (removed1 ++ removed2).map (·.chuteId)⟩

/-! ## Image reference parsing (src/sek8s/validators/cosign.py,
`CosignValidator._parse_image_reference`, lines 329-388) -/

/-- Python `image.split("/")[-1]`. -/
def lastComponent (l : List Char) : List Char := (splitOnChar '/' l).getLastD []

/-- The `(registry, organization, repository, tag/digest)` quadruple. -/
structure ImageRef where
  registry : List Char
  org : List Char
  repo : List Char
  tagOrDigest : List Char
deriving DecidableEq, Repr

/-- Embedding of the digest/tag extraction prelude of
`_parse_image_reference` (cosign.py lines 342-350): split on the first `@`
when present (the tag/digest component keeping its `@`), otherwise split
off a tag at the last `:` only when `:` occurs in the last `/`-separated
component, otherwise default the tag to `latest`.  (The inner `none` arm of
the `rsplit` match is unreachable: a `:` in the last component is a `:` in
the string.) -/
def imageBodyTag (image : List Char) : List Char × List Char :=
  match splitFirst '@' image with
  | some (name, digest) => (name, '@' :: digest)
  | none =>
    if ':' ∈ lastComponent image then
      match splitLast ':' image with
      | some (name, tag) => (name, tag)
      | none => (image, "latest".toList)
    else (image, "latest".toList)

/-- Embedding of `CosignValidator._parse_image_reference` (cosign.py lines
329-388).  `.error ()` models the `raise ValueError("Invalid image
reference: …")` of the empty-remainder registry branch; the `[]` arm of the
split match is dead (a split never returns an empty list) and also maps to
the error.  The final `match rest with | [] => …` arm mirrors the source's
defensive `len(parts) == 1` case, unreachable because that branch requires
`/` in the body. -/
def parse_image_reference (image : List Char) : Except Unit ImageRef :=
  let (body, tagOrDigest) := imageBodyTag image
  if '/' ∉ body then .ok ⟨"docker.io".toList, "library".toList, body, tagOrDigest⟩
  else
    match splitOnChar '/' body with
    | [] => .error ()
    | first :: rest =>
      if '.' ∈ first ∨ ':' ∈ first then
        match rest with
        | [] => .error ()
        | [r] => .ok ⟨first, "library".toList, r, tagOrDigest⟩
        | o :: rs => .ok ⟨first, o, joinChar '/' rs, tagOrDigest⟩
      else
        match rest with
        | [] => .ok ⟨"docker.io".toList, "library".toList, first, tagOrDigest⟩
        | _ :: _ => .ok ⟨"docker.io".toList, first, joinChar '/' rest, tagOrDigest⟩

/-- The parse described by claim C7's words, as a total function: same
digest/tag prelude; no `/` → Docker Hub official image; a first segment
containing `.` or `:` is the registry, org defaulting to `library` when
exactly one segment follows (the zero-segment filler arm is unreachable);
otherwise Docker Hub with the first segment as org and the slash-joined
remainder as repo. -/
def parseImageReferenceSpec (image : List Char) : ImageRef :=
  let (body, tagOrDigest) := imageBodyTag image
  if '/' ∉ body then ⟨"docker.io".toList, "library".toList, body, tagOrDigest⟩
  else
    match splitOnChar '/' body with
    | [] => ⟨"docker.io".toList, "library".toList, body, tagOrDigest⟩
    | first :: rest =>
      if '.' ∈ first ∨ ':' ∈ first then
        match rest with
        | [] => ⟨first, "library".toList, [], tagOrDigest⟩
        | [r] => ⟨first, "library".toList, r, tagOrDigest⟩
        | o :: rs => ⟨first, o, joinChar '/' rs, tagOrDigest⟩
      else ⟨"docker.io".toList, first, joinChar '/' rest, tagOrDigest⟩

/-! ## Merge helpers for the admission controller theorems -/

/-- Per-validator contribution to the merged message list that
`validate_admission` actually produces: nothing for an allowed result, the
result's messages for a denial, and the internal-error line for an
exception. -/
def outcomeMessages : String × ValidatorOutcome → List String
  | (_, .ok r) => if r.allowed then [] else r.messages
  | (name, .exn) => [name ++ ": Internal error"]

/-- Per-validator contribution to the merged warnings. -/
def outcomeWarnings : String × ValidatorOutcome → List String
  | (_, .ok r) => r.warnings
  | (_, .exn) => []

/-- Merged allow bit for one outcome: an exception counts as a denial. -/
def outcomeAllowed : String × ValidatorOutcome → Bool
  | (_, .ok r) => r.allowed
  | (_, .exn) => false

end Sek8s

namespace Sek8s

/-! ## Claim C1 -/

theorem mergeOutcomes_spec (outcomes : List (String × ValidatorOutcome)) :
    mergeOutcomes outcomes =
      (outcomes.all outcomeAllowed,
        (outcomes.map outcomeMessages).flatten,
        (outcomes.map outcomeWarnings).flatten) := by
  induction outcomes with
  | nil => rfl
  | cons head tail ih =>
    obtain ⟨name, o⟩ := head
    cases o with
    | exn => simp [mergeOutcomes, ih, outcomeAllowed, outcomeMessages, outcomeWarnings]
    | ok r =>
      cases hr : r.allowed <;>
        simp [mergeOutcomes, ih, outcomeAllowed, outcomeMessages, outcomeWarnings, hr]

/-- Counterexample to claim C1 as stated: with a single validator returning
an allowed result that carries a message, `validate_admission` drops the
message, so the merged messages are not the concatenation of all the
results' messages (which would be `["policy ok"]`). -/
theorem C1_counterexample :
    (mergeOutcomes [("OPAValidator", .ok ⟨true, ["policy ok"], []⟩)]).2.1
      ≠ [["policy ok"]].flatten := by
  decide

/-- Claim C1, amended.  For every admission request uid and validator
outcomes: the response's uid equals the request uid; merged `allowed` is the
conjunction of the per-validator allow bits with an exception counting as a
denial; the merged messages are the concatenation, in validator order, of
the messages of the validators whose result was a denial, together with
`"<validator class name>: Internal error"` for each validator whose task
raised — the messages of validators that allowed are dropped (unlike
`ValidationResult.combine`, which concatenates the messages of all its
inputs but is not used by `validate_admission`). -/
theorem C1_validate_admission_merge (uid : String)
    (outcomes : List (String × ValidatorOutcome)) (results : List ValidationResult) :
    (validate_admission uid outcomes).uid = uid ∧
    (validate_admission uid outcomes).allowed = outcomes.all outcomeAllowed ∧
    (mergeOutcomes outcomes).2.1 = (outcomes.map outcomeMessages).flatten ∧
    (ValidationResult.combine results).messages = (results.map (·.messages)).flatten := by
  refine ⟨rfl, ?_, ?_, ?_⟩
  · simp [validate_admission, build_response, mergeOutcomes_spec]
  · simp [mergeOutcomes_spec]
  · induction results with
    | nil => rfl
    | cons r rest ih => simp [ValidationResult.combine, ih]

/-! ## Claim C4 -/

/-- Counterexample to claim C4 as stated: all three headers present, the
hotkey in the allowed-signer set, the signature valid, and a nonce 1000
seconds in the future (`nonce - now = 1000 ≥ 30`).  The claim requires HTTP
401 Unauthorized, but `authorize` only tests `now - nonce >= 30`, which is
false here, so the request is authorized. -/
theorem C4_counterexample :
    authorize true false (some "cache") ⟨"hk", []⟩ 1000 none
      (some "hk") (some "2000") (some "ab") (fun _ _ => some true) = .authorized := by
  decide

/-- Claim C4, amended.  With all three headers present and non-empty and the
nonce parsing as integer `t`: `authorize` answers 401 Unauthorized whenever
the hotkey is not in the allowed-signer set, or the nonce is stale
(`now - t ≥ 30`), or the signature does not verify; but a future nonce is
not rejected by the nonce check — only staleness is tested, so with an
allowed hotkey and a valid signature a request whose nonce satisfies
`t - now ≥ 30` is authorized. -/
theorem C4_authorize_unauthorized (allowMiner allowValidator : Bool)
    (purpose : Option String) (s : AuthSettings) (now : Int)
    (bodySha256 : Option String) (hk nc sg : String)
    (verify : String → String → Option Bool) (t : Int)
    (hhk : ¬hk.isEmpty) (hnc : ¬nc.isEmpty) (hsg : ¬sg.isEmpty)
    (ht : pyInt nc = some t) :
    (hk ∉ allowedSignersFor allowMiner allowValidator s →
        authorize allowMiner allowValidator purpose s now bodySha256
          (some hk) (some nc) (some sg) verify = .unauthorized "go away (missing)") ∧
    (30 ≤ now - t →
        authorize allowMiner allowValidator purpose s now bodySha256
          (some hk) (some nc) (some sg) verify = .unauthorized "go away (missing)") ∧
    (∀ payload, payloadFor bodySha256 purpose = some payload →
        verify (hk ++ ":" ++ nc ++ ":" ++ payload) sg = some false →
        now - t < 30 →
        hk ∈ allowedSignersFor allowMiner allowValidator s →
        authorize allowMiner allowValidator purpose s now bodySha256
          (some hk) (some nc) (some sg) verify =
          .unauthorized "go away (sig)") ∧
    (∀ payload, payloadFor bodySha256 purpose = some payload →
        verify (hk ++ ":" ++ nc ++ ":" ++ payload) sg = some true →
        30 ≤ t - now →
        hk ∈ allowedSignersFor allowMiner allowValidator s →
        authorize allowMiner allowValidator purpose s now bodySha256
          (some hk) (some nc) (some sg) verify = .authorized) := by
  have hfalsy : (headerFalsy (some hk) || headerFalsy (some nc) || headerFalsy (some sg)) = false := by
    simp [headerFalsy, hhk, hnc, hsg]
  refine ⟨?_, ?_, ?_, ?_⟩
  · intro hmem
    simp only [authorize, hfalsy, Bool.false_eq_true, if_false, ht]
    simp [hmem]
  · intro hstale
    simp only [authorize, hfalsy, Bool.false_eq_true, if_false, ht]
    by_cases hmem : hk ∈ allowedSignersFor allowMiner allowValidator s
    · simp [hmem, hstale]
    · simp [hmem]
  · intro payload hpay hver hfresh hmem
    simp only [authorize, hfalsy, Bool.false_eq_true, if_false, ht]
    simp [hmem, not_le.mpr hfresh, hpay, hver]
  · intro payload hpay hver hfuture hmem
    have hfresh : now - t < 30 := by omega
    simp only [authorize, hfalsy, Bool.false_eq_true, if_false, ht]
    simp [hmem, not_le.mpr hfresh, hpay, hver]

/-- Witness for `C4_authorize_unauthorized` at a concrete input. -/
theorem C4_authorize_unauthorized_witness :
    ¬("hk" : String).isEmpty ∧ pyInt "100" = some 100 ∧
    (authorize true false (some "cache") ⟨"other", []⟩ 1000 none
      (some "hk") (some "100") (some "ab") (fun _ _ => some true) =
        .unauthorized "go away (missing)") := by
  refine ⟨by decide, by decide, ?_⟩
  exact (C4_authorize_unauthorized true false (some "cache") ⟨"other", []⟩ 1000 none
    "hk" "100" "ab" (fun _ _ => some true) 100
    (by decide) (by decide) (by decide) (by decide)).1 (by decide)

/-! ## Claim C10 -/

/-- Claim C10: with all three headers present and non-empty and the hotkey
in the allowed-signer set, a nonce that does not parse as an integer makes
`authorize` raise an uncaught `ValueError` from `int(nonce)` (surfacing as
an internal server error) rather than answering HTTP 401 Unauthorized. -/
theorem C10_malformed_nonce_uncaught (allowMiner allowValidator : Bool)
    (purpose : Option String) (s : AuthSettings) (now : Int)
    (bodySha256 : Option String) (hk nc sg : String)
    (verify : String → String → Option Bool)
    (hhk : ¬hk.isEmpty) (hnc : ¬nc.isEmpty) (hsg : ¬sg.isEmpty)
    (hmem : hk ∈ allowedSignersFor allowMiner allowValidator s)
    (hbad : pyInt nc = none) :
    authorize allowMiner allowValidator purpose s now bodySha256
      (some hk) (some nc) (some sg) verify = .uncaught "ValueError" := by
  have hfalsy : (headerFalsy (some hk) || headerFalsy (some nc) || headerFalsy (some sg)) = false := by
    simp [headerFalsy, hhk, hnc, hsg]
  simp [authorize, hfalsy, hmem, hbad]

/-- Witness for `C10_malformed_nonce_uncaught` at a concrete input. -/
theorem C10_malformed_nonce_uncaught_witness :
    pyInt "abc" = none ∧
    authorize true false (some "cache") ⟨"hk", []⟩ 1000 none
      (some "hk") (some "abc") (some "ab") (fun _ _ => some true) =
        .uncaught "ValueError" := by
  refine ⟨by decide, ?_⟩
  exact C10_malformed_nonce_uncaught true false (some "cache") ⟨"hk", []⟩ 1000 none
    "hk" "abc" "ab" (fun _ _ => some true)
    (by decide) (by decide) (by decide) (by decide) (by decide)

/-! ## Claim C2 -/

/-- Claim C2 fails on the code (code bug): when the upstream manifest
endpoint cannot be fetched (here: HTTP 503), `verify_cache` does not raise —
it returns `{"verified": 0, "skipped": 0, "total": 0,
"skipped_api_error": True}` — and both execution paths that write the
`.cache_complete` marker, the background download task and `reconcile`,
treat that as a successful verification and write the marker even though no
local file was ever compared against a fetched manifest (the returned
`skipped_api_error` flag is inspected by no caller). -/
theorem C2_cache_complete_without_verification :
    verify_cache (.httpError 503 "unavailable") true [] = .ok ⟨0, 0, 0, true⟩ ∧
    (run_download true
        (verify_cache (.httpError 503 "unavailable") true [])).wroteComplete = true ∧
    (reconcile true (.ok (some "org/model") (some "abcdef"))
        (verify_cache (.httpError 503 "unavailable") true [])).wroteComplete = true := by
  exact ⟨rfl, rfl, rfl⟩

/-! ## Claim C3 -/

/-- Claim C3 fails on the code (code bug): on a manifest-fetch client error
or timeout `verify_cache` returns the skip dictionary instead of raising
`ValueError("verification failed: …")`, and `reconcile` consequently writes
`.cache_complete` rather than leaving the snapshot markerless.  The
reconciler does contain the branch the claim describes — had `verify_cache`
raised a message containing "verification failed", `reconcile` would have
left the snapshot markerless and unreconciled without writing
`.cache_stale`, as the last conjunct shows — but that branch is unreachable
with the shipped `verify_cache`. -/
theorem C3_fetch_failure_returns_skip_dict :
    verify_cache .clientError true [] = .ok ⟨0, 0, 0, true⟩ ∧
    reconcile true (.ok (some "org/model") (some "abcdef"))
        (verify_cache .clientError true []) =
      ⟨true, false, true⟩ ∧
    reconcile true (.ok (some "org/model") (some "abcdef"))
        (.error "verification failed: could not fetch manifest") =
      ⟨false, false, false⟩ := by
  exact ⟨rfl, rfl, rfl⟩

/-! ## Claim C9 -/

/-- Everything the size pass removes was among its candidates. -/
theorem secondPass_subset (maxB : Nat) :
    ∀ (t : Nat) (l : List ChuteEntry) (x : ChuteEntry), x ∈ secondPass maxB t l → x ∈ l := by
  intro t l
  induction l generalizing t with
  | nil => intro x hx; simp [secondPass] at hx
  | cons c rest ih =>
    intro x hx
    simp only [secondPass] at hx
    by_cases h : t ≤ maxB
    · rw [if_pos h] at hx; simp at hx
    · rw [if_neg h] at hx
      rcases List.mem_cons.mp hx with rfl | hx'
      · exact List.mem_cons_self _ _
      · exact List.mem_cons_of_mem _ (ih _ x hx')

/-- The size pass removes an initial run of its (size-sorted) candidate
list: removal proceeds strictly in the sorted order. -/
theorem secondPass_take (maxB : Nat) :
    ∀ (t : Nat) (l : List ChuteEntry), ∃ k, secondPass maxB t l = l.take k := by
  intro t l
  induction l generalizing t with
  | nil => exact ⟨0, rfl⟩
  | cons c rest ih =>
    by_cases h : t ≤ maxB
    · exact ⟨0, by simp [secondPass, h]⟩
    · obtain ⟨k, hk⟩ := ih (t - c.size)
      exact ⟨k + 1, by simp [secondPass, h, hk]⟩

/-- Helper: the total size of one more candidate. -/
theorem sumSizes_cons (c : ChuteEntry) (l : List ChuteEntry) :
    sumSizes (c :: l) = c.size + sumSizes l := by
  simp [sumSizes]

/-- Helper: total size distributes over append. -/
theorem sumSizes_append (a b : List ChuteEntry) :
    sumSizes (a ++ b) = sumSizes a + sumSizes b := by
  simp [sumSizes]

/-- After the size pass the remaining total is within the cap. -/
theorem secondPass_total (maxB : Nat) :
    ∀ (l : List ChuteEntry) (t : Nat), t = sumSizes l →
      t - sumSizes (secondPass maxB t l) ≤ maxB := by
  intro l
  induction l with
  | nil =>
    intro t ht
    simp [sumSizes] at ht
    simp [secondPass, ht, sumSizes]
  | cons c rest ih =>
    intro t ht
    rw [sumSizes_cons] at ht
    by_cases h : t ≤ maxB
    · simp only [secondPass, if_pos h]
      have h0 : sumSizes ([] : List ChuteEntry) = 0 := rfl
      omega
    · have hih := ih (t - c.size) (by omega)
      simp only [secondPass, if_neg h, sumSizes_cons]
      omega

/-- Sorting does not change the candidates' total size. -/
theorem sumSizes_sort (l : List ChuteEntry) : sumSizes (sortBySizeDesc l) = sumSizes l := by
  unfold sumSizes sortBySizeDesc
  exact ((List.mergeSort_perm l _).map _).sum_eq

/-- Claim C9.  For every `cleanup(max_age_days, max_size_gb,
exclude_pattern)` run over snapshots with distinct chute ids: no in-progress
snapshot is ever removed; every removed id belongs to a candidate — a
tracked snapshot that is not in progress, has non-zero size and does not
match the exclude pattern; the age pass removes every candidate last
accessed before `now − max_age_days`; after the size pass the remaining
candidates' total is within the byte cap, and the size pass removes nothing
when the remaining total is already within the cap and otherwise removes an
initial run of the size-descending ordering of the remaining candidates;
and the returned `CleanupResult` lists exactly the removed entries' chute
ids with `freed_bytes` the sum of their sizes. -/
theorem C9_cleanup_spec (now : Int) (maxAgeDays maxSizeGb : Nat)
    (pattern : Option String) (chutes : List ChuteEntry)
    (hnodup : (chutes.map (·.chuteId)).Nodup) :
    (∀ c ∈ chutes, c.inProgress = true →
        c.chuteId ∉ (cleanup now maxAgeDays maxSizeGb pattern chutes).removedChutes) ∧
    (∀ id ∈ (cleanup now maxAgeDays maxSizeGb pattern chutes).removedChutes,
        ∃ c ∈ chutes, c.chuteId = id ∧ c.inProgress = false ∧ c.size ≠ 0 ∧
          excludedByPattern pattern c = false) ∧
    (∀ c ∈ gatherCandidates pattern chutes,
        candLastAcc c < cleanupCutoff now maxAgeDays →
        c.chuteId ∈ (cleanup now maxAgeDays maxSizeGb pattern chutes).removedChutes) ∧
    (sumSizes (remainingAfterFirst (cleanupCutoff now maxAgeDays)
          (gatherCandidates pattern chutes)) -
        sumSizes (cleanupSecondRemoved (cleanupMaxBytes maxSizeGb)
          (remainingAfterFirst (cleanupCutoff now maxAgeDays)
            (gatherCandidates pattern chutes))) ≤
      cleanupMaxBytes maxSizeGb) ∧
    (sumSizes (remainingAfterFirst (cleanupCutoff now maxAgeDays)
          (gatherCandidates pattern chutes)) ≤ cleanupMaxBytes maxSizeGb →
      cleanupSecondRemoved (cleanupMaxBytes maxSizeGb)
          (remainingAfterFirst (cleanupCutoff now maxAgeDays)
            (gatherCandidates pattern chutes)) = []) ∧
    (∃ k, cleanupSecondRemoved (cleanupMaxBytes maxSizeGb)
          (remainingAfterFirst (cleanupCutoff now maxAgeDays)
            (gatherCandidates pattern chutes)) =
        (sortBySizeDesc (remainingAfterFirst (cleanupCutoff now maxAgeDays)
          (gatherCandidates pattern chutes))).take k) ∧
    ((cleanup now maxAgeDays maxSizeGb pattern chutes).removedChutes =
        (firstPassRemoved (cleanupCutoff now maxAgeDays) (gatherCandidates pattern chutes) ++
          cleanupSecondRemoved (cleanupMaxBytes maxSizeGb)
            (remainingAfterFirst (cleanupCutoff now maxAgeDays)
              (gatherCandidates pattern chutes))).map (·.chuteId)) ∧
    ((cleanup now maxAgeDays maxSizeGb pattern chutes).freedBytes =
        sumSizes (firstPassRemoved (cleanupCutoff now maxAgeDays)
            (gatherCandidates pattern chutes)) +
          sumSizes (cleanupSecondRemoved (cleanupMaxBytes maxSizeGb)
            (remainingAfterFirst (cleanupCutoff now maxAgeDays)
              (gatherCandidates pattern chutes)))) := by
  have hmem_cands : ∀ d,
      d ∈ firstPassRemoved (cleanupCutoff now maxAgeDays) (gatherCandidates pattern chutes) ++
        cleanupSecondRemoved (cleanupMaxBytes maxSizeGb)
          (remainingAfterFirst (cleanupCutoff now maxAgeDays)
            (gatherCandidates pattern chutes)) →
      d ∈ gatherCandidates pattern chutes := by
    intro d hd
    rcases List.mem_append.mp hd with hd1 | hd2
    · exact (List.mem_filter.mp hd1).1
    · unfold cleanupSecondRemoved at hd2
      by_cases hover : cleanupMaxBytes maxSizeGb <
          sumSizes (remainingAfterFirst (cleanupCutoff now maxAgeDays)
            (gatherCandidates pattern chutes))
      · rw [if_pos hover] at hd2
        have hsorted := secondPass_subset _ _ _ _ hd2
        have hrem := (List.mergeSort_perm _ _).mem_iff.mp hsorted
        exact (List.mem_filter.mp hrem).1
      · rw [if_neg hover] at hd2
        simp at hd2
  have hcand_props : ∀ d ∈ gatherCandidates pattern chutes,
      d ∈ chutes ∧ d.inProgress = false ∧ d.size ≠ 0 ∧
        excludedByPattern pattern d = false := by
    intro d hd
    obtain ⟨h1, h2⟩ := List.mem_filter.mp hd
    simp only [Bool.and_eq_true, Bool.not_eq_true', bne_iff_ne] at h2
    exact ⟨h1, h2.1.1, h2.1.2, h2.2⟩
  have hresult : (cleanup now maxAgeDays maxSizeGb pattern chutes).removedChutes =
      (firstPassRemoved (cleanupCutoff now maxAgeDays) (gatherCandidates pattern chutes) ++
        cleanupSecondRemoved (cleanupMaxBytes maxSizeGb)
          (remainingAfterFirst (cleanupCutoff now maxAgeDays)
            (gatherCandidates pattern chutes))).map (·.chuteId) := rfl
  refine ⟨?_, ?_, ?_, ?_, ?_, ?_, hresult, ?_⟩
  · intro c hc hprog hmem
    rw [hresult] at hmem
    obtain ⟨d, hd, hdid⟩ := List.mem_map.mp hmem
    obtain ⟨hdchutes, hdprog, _, _⟩ := hcand_props d (hmem_cands d hd)
    have hdc : d = c := List.inj_on_of_nodup_map hnodup hdchutes hc hdid
    rw [hdc] at hdprog
    rw [hprog] at hdprog
    exact Bool.true_eq_false.mp hdprog
  · intro id hid
    rw [hresult] at hid
    obtain ⟨d, hd, hdid⟩ := List.mem_map.mp hid
    obtain ⟨hdchutes, hdprog, hdsize, hdexcl⟩ := hcand_props d (hmem_cands d hd)
    exact ⟨d, hdchutes, hdid, hdprog, hdsize, hdexcl⟩
  · intro c hc hlt
    rw [hresult]
    refine List.mem_map.mpr ⟨c, List.mem_append.mpr (Or.inl ?_), rfl⟩
    exact List.mem_filter.mpr ⟨hc, decide_eq_true hlt⟩
  · unfold cleanupSecondRemoved
    by_cases hover : cleanupMaxBytes maxSizeGb <
        sumSizes (remainingAfterFirst (cleanupCutoff now maxAgeDays)
          (gatherCandidates pattern chutes))
    · rw [if_pos hover]
      exact secondPass_total _ _ _ (sumSizes_sort _).symm
    · rw [if_neg hover]
      have h0 : sumSizes ([] : List ChuteEntry) = 0 := rfl
      omega
  · intro hle
    unfold cleanupSecondRemoved
    rw [if_neg (by omega)]
  · unfold cleanupSecondRemoved
    by_cases hover : cleanupMaxBytes maxSizeGb <
        sumSizes (remainingAfterFirst (cleanupCutoff now maxAgeDays)
          (gatherCandidates pattern chutes))
    · rw [if_pos hover]
      exact secondPass_take _ _ _
    · rw [if_neg hover]
      exact ⟨0, by simp⟩
  · rw [show (cleanup now maxAgeDays maxSizeGb pattern chutes).freedBytes =
        sumSizes (firstPassRemoved (cleanupCutoff now maxAgeDays)
            (gatherCandidates pattern chutes) ++
          cleanupSecondRemoved (cleanupMaxBytes maxSizeGb)
            (remainingAfterFirst (cleanupCutoff now maxAgeDays)
              (gatherCandidates pattern chutes))) from rfl]
    exact sumSizes_append _ _

/-- Witness for `C9_cleanup_spec` at a concrete input: two stale snapshots,
one of them in progress; the in-progress one survives cleanup. -/
theorem C9_cleanup_spec_witness :
    (([⟨"a", false, 5, some 0, none⟩, ⟨"b", true, 7, some 0, none⟩] :
        List ChuteEntry).map (·.chuteId)).Nodup ∧
    ("b" ∉ (cleanup 1000000 1 1 none
        [⟨"a", false, 5, some 0, none⟩, ⟨"b", true, 7, some 0, none⟩]).removedChutes) ∧
    (cleanup 1000000 1 1 none
        [⟨"a", false, 5, some 0, none⟩, ⟨"b", true, 7, some 0, none⟩]).removedChutes =
      ["a"] := by
  refine ⟨by decide, ?_, by decide⟩
  exact (C9_cleanup_spec 1000000 1 1 none
      [⟨"a", false, 5, some 0, none⟩, ⟨"b", true, 7, some 0, none⟩] (by decide)).1
    ⟨"b", true, 7, some 0, none⟩ (by decide) rfl

/-! ## Claim C7 -/

/-- A single-character split never produces the empty list of components. -/
theorem splitOnChar_ne_nil (c : Char) (l : List Char) : splitOnChar c l ≠ [] := by
  induction l with
  | nil => simp [splitOnChar]
  | cons x xs ih =>
    simp only [splitOnChar]
    cases h : splitOnChar c xs with
    | nil => exact absurd h ih
    | cons a b => by_cases hx : x = c <;> simp [hx]

/-- The separator occurs in the list iff the split has at least two
components. -/
theorem two_le_splitOnChar_length (c : Char) (l : List Char) :
    c ∈ l ↔ 2 ≤ (splitOnChar c l).length := by
  induction l with
  | nil => simp [splitOnChar]
  | cons x xs ih =>
    simp only [splitOnChar]
    cases h : splitOnChar c xs with
    | nil => exact absurd h (splitOnChar_ne_nil c xs)
    | cons a b =>
      rw [h] at ih
      by_cases hx : x = c
      · subst hx
        simp only [eq_self_iff_true, if_true, List.length_cons, List.mem_cons, true_or,
          true_iff]
        omega
      · have hmem : (c ∈ x :: xs) ↔ c ∈ xs := by
          simp only [List.mem_cons, or_iff_right_iff_imp]
          intro hc; exact absurd hc.symm hx
        rw [hmem, ih]
        simp only [hx, if_false, List.length_cons]

/-- Claim C7: `_parse_image_reference` computes, for every image string,
exactly the quadruple described by the specification — first-`@` digest
split, tag extraction only from the last path component with default
`latest`, Docker Hub official for slash-free names, explicit registry when
the first segment contains `.` or `:` (org defaulting to `library` for a
single following segment), and Docker Hub org/repo otherwise — and in
particular never reaches its `ValueError` branch. -/
theorem C7_parse_image_reference_spec (image : List Char) :
    parse_image_reference image = .ok (parseImageReferenceSpec image) := by
  unfold parse_image_reference parseImageReferenceSpec
  cases hbt : imageBodyTag image with
  | mk body tag =>
    simp only
    by_cases hs : '/' ∈ body
    · have hlen := (two_le_splitOnChar_length '/' body).mp hs
      cases hsp : splitOnChar '/' body with
      | nil => exact absurd hsp (splitOnChar_ne_nil '/' body)
      | cons first rest =>
        rw [hsp] at hlen
        cases rest with
        | nil => simp at hlen
        | cons o rs =>
          by_cases hreg : '.' ∈ first ∨ ':' ∈ first
          · cases rs <;> simp [hs, hsp, hreg]
          · cases rs <;> simp [hs, hsp, hreg]
    · simp [hs]

/-! ## Claim C8 -/

/-- Counterexample to claim C8 as stated: the allowlist entry `"Docker.io*"`
ends in `*` and its stem lower-cases to a prefix of `"docker.io"` — a
case-insensitive prefix match, which the claim says suffices — yet
`_is_registry_allowed` answers false, because the wildcard branch uses
case-sensitive `startswith`. -/
theorem C8_counterexample :
    is_registry_allowed ["Docker.io*".toList] "docker.io".toList = false ∧
    "Docker.io*".toList.getLast? = some '*' ∧
    (lowerList ("Docker.io*".toList.dropLast)).isPrefixOf
        (lowerList "docker.io".toList) = true := by
  decide

/-- Claim C8, amended.  `_is_registry_allowed r` returns true iff some
allowlist entry either does not end in `*` and equals `r` case-insensitively,
or ends with `*` and its stem (the entry without the trailing `*`) is a
CASE-SENSITIVE prefix of `r`; only the exact-match branch is
case-insensitive. -/
theorem C8_is_registry_allowed_spec (allowedRegistries : List (List Char))
    (registry : List Char) :
    is_registry_allowed allowedRegistries registry = true ↔
      ∃ a ∈ allowedRegistries,
        (a.getLast? = some '*' ∧ a.dropLast.isPrefixOf registry = true) ∨
        (a.getLast? ≠ some '*' ∧ lowerList a = lowerList registry) := by
  simp only [is_registry_allowed, List.any_eq_true]
  constructor
  · rintro ⟨a, ha, hp⟩
    refine ⟨a, ha, ?_⟩
    by_cases h : a.getLast? = some '*' <;> simp_all
  · rintro ⟨a, ha, hp⟩
    refine ⟨a, ha, ?_⟩
    rcases hp with ⟨h1, h2⟩ | ⟨h1, h2⟩ <;> simp_all

/-! ## Claim C5 -/

/-- Helper for the singleton join produced by a lone rate-limit violation. -/
theorem intercalate_singleton (m : String) : String.intercalate "; " [m] = m := by
  simp [String.intercalate, String.intercalate.go]

/-- Running the per-image loop past a prefix that finished normally only
extends the seen set with images of that prefix; the loop on `pre ++ rest`
continues on `rest` from the prefix's accumulated state. -/
theorem verifyLoop_append :
    ∀ (pre : List ImgCase) (seen violations invoked vs inv : List String),
      verifyLoop seen violations invoked pre = (.finished vs, inv) →
      ∀ rest, ∃ seen',
        (∀ x, x ∈ seen' → x ∈ seen ∨ x ∈ pre.map (·.image)) ∧
        verifyLoop seen violations invoked (pre ++ rest) = verifyLoop seen' vs inv rest := by
  intro pre
  induction pre with
  | nil =>
    intro seen violations invoked vs inv h rest
    simp only [verifyLoop] at h
    obtain ⟨h1, h2⟩ := Prod.mk.injEq .. ▸ h
    cases h1
    refine ⟨seen, fun x hx => Or.inl hx, ?_⟩
    simp_all [verifyLoop]
  | cons p pre' ih =>
    intro seen violations invoked vs inv h rest
    by_cases hseen : p.image ∈ seen
    · simp only [verifyLoop, if_pos hseen] at h
      obtain ⟨seen', hsub, heq⟩ := ih seen violations invoked vs inv h rest
      refine ⟨seen', fun x hx => ?_, ?_⟩
      · rcases hsub x hx with hx' | hx'
        · exact Or.inl hx'
        · exact Or.inr (by simp [hx'])
      · simpa [verifyLoop, hseen] using heq
    · by_cases hcfg : p.hasConfig
      · by_cases hdis : p.disabled
        · simp only [verifyLoop, if_neg hseen, hcfg, hdis, Bool.not_true, if_true,
            Bool.false_eq_true, if_false] at h ⊢
          obtain ⟨seen', hsub, heq⟩ :=
            ih (p.image :: seen) violations invoked vs inv h rest
          refine ⟨seen', fun x hx => ?_, heq⟩
          rcases hsub x hx with hx' | hx'
          · rcases List.mem_cons.mp hx' with hx'' | hx''
            · exact Or.inr (by simp [hx''])
            · exact Or.inl hx''
          · exact Or.inr (by simp [hx'])
        · cases hres : p.result with
          | ok valid =>
            cases valid <;>
            · simp only [verifyLoop, if_neg hseen, hcfg, hdis, hres, Bool.not_true,
                Bool.false_eq_true, if_false, if_true] at h ⊢
              first
              | (obtain ⟨seen', hsub, heq⟩ :=
                  ih (p.image :: seen) violations (invoked ++ [p.image]) vs inv h rest
                 refine ⟨seen', fun x hx => ?_, heq⟩
                 rcases hsub x hx with hx' | hx'
                 · rcases List.mem_cons.mp hx' with hx'' | hx''
                   · exact Or.inr (by simp [hx''])
                   · exact Or.inl hx''
                 · exact Or.inr (by simp [hx']))
              | (obtain ⟨seen', hsub, heq⟩ :=
                  ih (p.image :: seen)
                    (violations ++ ["Image " ++ p.image ++ " has invalid or missing signature"])
                    (invoked ++ [p.image]) vs inv h rest
                 refine ⟨seen', fun x hx => ?_, heq⟩
                 rcases hsub x hx with hx' | hx'
                 · rcases List.mem_cons.mp hx' with hx'' | hx''
                   · exact Or.inr (by simp [hx''])
                   · exact Or.inl hx''
                 · exact Or.inr (by simp [hx']))
          | rateLimit m =>
            simp [verifyLoop, if_neg hseen, hcfg, hdis, hres] at h
          | unavailable m =>
            simp [verifyLoop, if_neg hseen, hcfg, hdis, hres] at h
          | exn m =>
            simp only [verifyLoop, if_neg hseen, hcfg, hdis, hres, Bool.not_true,
              Bool.false_eq_true, if_false, if_true] at h ⊢
            obtain ⟨seen', hsub, heq⟩ :=
              ih (p.image :: seen)
                (violations ++ ["Verification failed for " ++ p.image ++ ": " ++ m])
                (invoked ++ [p.image]) vs inv h rest
            refine ⟨seen', fun x hx => ?_, heq⟩
            rcases hsub x hx with hx' | hx'
            · rcases List.mem_cons.mp hx' with hx'' | hx''
              · exact Or.inr (by simp [hx''])
              · exact Or.inl hx''
            · exact Or.inr (by simp [hx'])
      · simp only [verifyLoop, if_neg hseen, hcfg, Bool.not_false, if_true] at h ⊢
        obtain ⟨seen', hsub, heq⟩ := ih (p.image :: seen) violations invoked vs inv h rest
        refine ⟨seen', fun x hx => ?_, heq⟩
        rcases hsub x hx with hx' | hx'
        · rcases List.mem_cons.mp hx' with hx'' | hx''
          · exact Or.inr (by simp [hx''])
          · exact Or.inl hx''
        · exact Or.inr (by simp [hx'])

/-- Claim C5: (1) while the global backoff is active (`now < rate_limit_until`
with a real clock, `0 ≤ now`), `_verify_image_signature` raises
`RateLimitError` without invoking the external cosign tool; (2) if the
per-image loop of one `validate` call reaches an image whose verification
raises `RateLimitError` after a prefix that finished normally, the loop
aborts there — the images verified are exactly those of the prefix plus the
rate-limited one, no later image is verified — and the resulting denial's
violation list is exactly the single rate-limit message (which `validate`
joins into the deny result). -/
theorem C5_rate_limit_backoff_and_abort :
    (∀ (rlu now : Int) (rateMsg : String) (cachePos cacheNeg : Bool) (run : ImgResult),
        0 ≤ now → now < rlu →
        verify_image_signature rlu now rateMsg cachePos cacheNeg run =
          (.rateLimit rateMsg, false)) ∧
    (∀ (pre : List ImgCase) (c : ImgCase) (post : List ImgCase) (m : String)
        (vs inv : List String),
        verifyLoop [] [] [] pre = (.finished vs, inv) →
        c.image ∉ pre.map (·.image) →
        c.hasConfig = true → c.disabled = false → c.result = .rateLimit m →
        verifyLoop [] [] [] (pre ++ c :: post) = (.raisedRate m, inv ++ [c.image]) ∧
        runRules [] [(RuleExit.raisedRate m).toStep] = .decided [m] ∧
        cosignValidate [(RuleExit.raisedRate m).toStep] =
          (ValidationResult.deny m, some (ValidationResult.deny m))) := by
  constructor
  · intro rlu now rateMsg cachePos cacheNeg run hnow hlt
    have hne : rlu ≠ 0 := by omega
    simp [verify_image_signature, hne, hlt]
  · intro pre c post m vs inv hpre hnotin hcfg hdis hres
    obtain ⟨seen', hsub, heq⟩ := verifyLoop_append pre [] [] [] vs inv hpre (c :: post)
    have hseen : c.image ∉ seen' := by
      intro hx
      rcases hsub c.image hx with hx' | hx'
      · simp at hx'
      · exact hnotin hx'
    refine ⟨?_, rfl, ?_⟩
    · rw [heq]
      simp [verifyLoop, hseen, hcfg, hdis, hres]
    · simp [cosignValidate, runRules, RuleExit.toStep, intercalate_singleton]

/-- Witness for `C5_rate_limit_backoff_and_abort` at concrete inputs:
backoff until 2000 with now 1500; a three-image request whose second image
is rate limited. -/
theorem C5_rate_limit_backoff_and_abort_witness :
    (0 : Int) ≤ 1500 ∧ (1500 : Int) < 2000 ∧
    verify_image_signature 2000 1500 "rate limited" false false (.ok true) =
      (.rateLimit "rate limited", false) ∧
    verifyLoop [] [] [] [⟨"img1", true, false, .ok true⟩] = (.finished [], ["img1"]) ∧
    verifyLoop [] [] []
        [⟨"img1", true, false, .ok true⟩,
         ⟨"img2", true, false, .rateLimit "rate limited"⟩,
         ⟨"img3", true, false, .ok true⟩] =
      (.raisedRate "rate limited", ["img1", "img2"]) := by
  refine ⟨by decide, by decide, ?_, by decide, ?_⟩
  · exact (C5_rate_limit_backoff_and_abort.1 2000 1500 "rate limited" false false
      (.ok true) (by decide) (by decide))
  · exact (C5_rate_limit_backoff_and_abort.2 [⟨"img1", true, false, .ok true⟩]
      ⟨"img2", true, false, .rateLimit "rate limited"⟩
      [⟨"img3", true, false, .ok true⟩] "rate limited" [] ["img1"]
      (by decide) (by decide) rfl rfl rfl).1

/-! ## Claim C6 -/

/-- Rule steps before an unavailable error that do not break the loop
(normal returns and generic exceptions) keep the loop running until it hits
the unavailable raise, whereupon validate returns the deny without caching. -/
theorem runRules_unavail (m : String) (rest : List RuleStep) :
    ∀ (pre : List RuleStep) (acc : List String),
      (∀ s ∈ pre, (∃ vs, s = RuleStep.returns vs) ∨ (∃ e, s = RuleStep.raiseExn e)) →
      runRules acc (pre ++ .raiseUnavail m :: rest) =
        .denyNoCache ("Cosign verification unavailable (network/infra): " ++ m) := by
  intro pre
  induction pre with
  | nil => intro acc _; simp [runRules]
  | cons s pre' ih =>
    intro acc h
    rcases h s (by simp) with ⟨vs, rfl⟩ | ⟨e, rfl⟩ <;>
      simp [runRules, ih _ (fun x hx => h x (by simp [hx]))]

/-- Claim C6: if during one `validate` call a rule raises the
verification-unavailable error (after rules that did not break the loop),
the call returns a deny whose message is the
`"Cosign verification unavailable (network/infra): …"` string and stores
nothing in the admission result cache; on every other outcome of the rule
loop — allow or deny, including the rate-limit break — the produced result
is stored in the admission result cache. -/
theorem C6_unavailable_not_cached :
    (∀ (pre : List RuleStep) (m : String) (rest : List RuleStep),
        (∀ s ∈ pre, (∃ vs, s = RuleStep.returns vs) ∨ (∃ e, s = RuleStep.raiseExn e)) →
        cosignValidate (pre ++ .raiseUnavail m :: rest) =
          (ValidationResult.deny ("Cosign verification unavailable (network/infra): " ++ m),
            none)) ∧
    (∀ (rules : List RuleStep) (vs : List String),
        runRules [] rules = .decided vs →
        (cosignValidate rules).2 = some (cosignValidate rules).1) := by
  constructor
  · intro pre m rest h
    simp [cosignValidate, runRules_unavail m rest pre [] h]
  · intro rules vs h
    simp [cosignValidate, h]

/-- Witness for `C6_unavailable_not_cached` at concrete inputs. -/
theorem C6_unavailable_not_cached_witness :
    cosignValidate [RuleStep.returns ["v1"], RuleStep.raiseUnavail "dial tcp timeout"] =
      (ValidationResult.deny
        ("Cosign verification unavailable (network/infra): " ++ "dial tcp timeout"), none) ∧
    runRules [] [RuleStep.returns []] = .decided [] ∧
    (cosignValidate [RuleStep.returns []]).2 = some (cosignValidate [RuleStep.returns []]).1 := by
  refine ⟨?_, by decide, ?_⟩
  · exact C6_unavailable_not_cached.1 [RuleStep.returns ["v1"]] "dial tcp timeout" []
      (fun s hs => by
        simp only [List.mem_singleton] at hs
        exact Or.inl ⟨["v1"], hs⟩)
  · exact C6_unavailable_not_cached.2 [RuleStep.returns []] [] (by decide)

end Sek8s
